import Mathlib

/-!
# Verification of the cofide-sdk-go endpoint-discovery core

Shallow embedding of the resilient streaming endpoint-discovery client:
the exponential backoff generator (`internal/backoff/backoff.go`), the
xDS watch session and endpoint cache (`internal/xds`, the `watchEndpoints`
/ `watchEndpointsRetried` / `GetEndpoints` functions), and the
watch-start deduplication performed with `sync.Map.LoadOrStore` plus
`sync.Once.Do`.

Go machine integers are modelled as mathematical integers with explicit
two's-complement wrapping at 64 bits where Go would overflow
(`time.Duration` is an `int64` count of nanoseconds).
-/

namespace CofideSDK

/-! ## Backoff generator (internal/backoff/backoff.go) -/

/-- Two's-complement wrapping of an integer into the `int64` range,
 exactly what Go arithmetic on `time.Duration` produces on overflow. -/
def wrap64 (x : Int) : Int := (x + 2 ^ 63) % 2 ^ 64 - 2 ^ 63

/-- Go's left-shift on an `int64`: the mathematical product truncated to
 64 bits (Go defines `x << s` as `x * 2^s` with wraparound; shift counts
 at or above the width produce 0 via the same formula). -/
def goShl64 (x : Int) (n : Nat) : Int := wrap64 (x * 2 ^ n)

/-- State of `backoff.Backoff`: the two configured delays (nanosecond
 counts, `time.Duration` = `int64`) and the call counter `n`.
 The mutex is irrelevant to the sequential semantics modelled here. -/
structure Backoff where
  InitialDelay : Int
  MaxDelay : Int
  n : Nat
deriving DecidableEq

/-- `backoff.NewBackoff()` with no options: 200ms initial delay,
 10s maximum delay (in nanoseconds), counter 0. -/
def NewBackoff : Backoff :=
  { InitialDelay := 200 * 1000000, MaxDelay := 10 * 1000000000, n := 0 }

/-- The value computed and returned by one call of `Backoff.Duration`:
 `d := b.InitialDelay << b.n`, then `if d < 0 || d > b.MaxDelay { d = b.MaxDelay }`. -/
def Backoff.DurationCompute (b : Backoff) : Int :=
  let d := goShl64 b.InitialDelay b.n
  if d < 0 ∨ b.MaxDelay < d then b.MaxDelay else d

/-- `Backoff.Duration`: returns the next wait period and the updated
 state (the counter `n` increments on every call). -/
def Backoff.Duration (b : Backoff) : Int × Backoff :=
  (b.DurationCompute, { b with n := b.n + 1 })

/-- `Backoff.Reset`: sets the counter back to 0. -/
def Backoff.Reset (b : Backoff) : Backoff := { b with n := 0 }

/-- The delay value the spec prescribes for the n-th call:
 `min(initial_delay << n, max_delay)` with the shift read mathematically
 (no wraparound), saturating at `max_delay`. -/
def specDelay (b : Backoff) : Int := min (b.InitialDelay * 2 ^ b.n) b.MaxDelay

lemma wrap64_eq_self {x : Int} (hlo : -(2 ^ 63) ≤ x) (hhi : x < 2 ^ 63) :
    wrap64 x = x := by
  unfold wrap64
  rw [Int.emod_eq_of_lt (by omega) (by omega)]
  omega

/-! ## xDS data model (internal/xds client, `watchEndpoints`) -/

/-- `xds.Endpoint`: one network-reachable instance of a service. -/
structure Endpoint where
  Host : String
  Port : Int
  Weight : Int
deriving DecidableEq

/-- A Go `[]Endpoint` value: `none` models a nil slice, `some l` a
 non-nil slice with elements `l` (a `make`-allocated empty slice is
 `some []`, distinct from nil). -/
abbrev GoSlice := Option (List Endpoint)

/-- The endpoint cache `c.endpoints` (`sync.Map`, service → `[]Endpoint`):
 `none` means no entry for the key. -/
abbrev EndpointCache := String → Option GoSlice

/-- `sync.Map.Store` on the endpoint cache. -/
def cacheStore (c : EndpointCache) (service : String) (v : GoSlice) :
    EndpointCache :=
  fun k => if k = service then some v else c k

/-- A socket address inside an LbEndpoint
 (`addr.GetAddress()`, `addr.GetPortValue()`; the port is a `uint32`). -/
structure SocketAddress where
  Address : String
  PortValue : Nat
deriving DecidableEq

/-- One `LbEndpoint` of a locality: its socket address and its
 load-balancing weight (`uint32`). -/
structure LbEndpoint where
  addr : SocketAddress
  weight : Nat
deriving DecidableEq

/-- One locality group (`ClusterLoadAssignment.Endpoints` element). -/
structure LocalityLbEndpoints where
  LbEndpoints : List LbEndpoint
deriving DecidableEq

/-- `endpoint.ClusterLoadAssignment`: the decoded form of an endpoint
 resource payload — a list of locality groups. -/
structure ClusterLoadAssignment where
  Endpoints : List LocalityLbEndpoints
deriving DecidableEq

/-- One opaque resource payload of a Discovery Response: `UnmarshalTo`
 either succeeds with a `ClusterLoadAssignment` or fails. -/
inductive Resource where
  | decodable (cla : ClusterLoadAssignment)
  | malformed
deriving DecidableEq

/-- `discovery.DiscoveryResponse`: version/nonce and the resource list. -/
structure DiscoveryResponse where
  VersionInfo : String
  Nonce : String
  Resources : List Resource
deriving DecidableEq

/-- `discovery.DiscoveryRequest` as built by `watchEndpoints`:
 node identity, type URL, resource names, and the ack fields
 (`VersionInfo` / `ResponseNonce` are proto string fields whose zero
 value is the empty string; the code never sets them). -/
structure DiscoveryRequest where
  NodeId : String
  TypeUrl : String
  ResourceNames : List String
  VersionInfo : String
  ResponseNonce : String
deriving DecidableEq

/-- The `resource.EndpointType` type URL constant. -/
def EndpointType : String :=
  "type.googleapis.com/envoy.config.endpoint.v3.ClusterLoadAssignment"

/-- The endpoint list built by the inner loops of `watchEndpoints`:
 `endpoints := make([]Endpoint, 0)` followed by one `append` per
 LbEndpoint of each locality. The result is always a non-nil slice. -/
def buildEndpoints (cla : ClusterLoadAssignment) : GoSlice :=
  some (cla.Endpoints.foldl (fun acc locality =>
    acc ++ locality.LbEndpoints.map (fun e =>
      { Host := e.addr.Address, Port := (e.addr.PortValue : Int),
        Weight := (e.weight : Int) })) [])

/-- The cache update performed by `watchEndpoints` for one received
 response: if the response has at least one resource, decode the first
 (`resp.Resources[0].UnmarshalTo(&cla)`); on decode failure `continue`
 (cache untouched), on success store the rebuilt list. A response with
 zero resources only logs "No endpoints in xDS response" and leaves the
 cache untouched. -/
def processResp (cache : EndpointCache) (service : String)
    (resp : DiscoveryResponse) : EndpointCache :=
  match resp.Resources with
  | [] => cache
  | Resource.malformed :: _ => cache
  | Resource.decodable cla :: _ => cacheStore cache service (buildEndpoints cla)

/-- One event observed by the receive loop of `watchEndpoints`: the
 context is found cancelled at the top of the loop, or `stream.Recv`
 yields a response, a clean `io.EOF`, or another receive error. -/
inductive StreamEvent where
  | cancelled
  | recvResp (resp : DiscoveryResponse)
  | recvEOF
  | recvErr
deriving DecidableEq

/-- How one connection attempt of `watchEndpoints` returned:
 `retNil` models `return nil` (context cancelled or clean end of
 stream), `retErr` models returning a non-nil error. -/
inductive AttemptOutcome where
  | retNil
  | retErr
deriving DecidableEq

/-- The environment of one connection attempt: whether
 `StreamAggregatedResources` succeeds, whether the initial `Send`
 succeeds, and the sequence of events the receive loop observes. -/
structure AttemptInput where
  connectOk : Bool
  sendOk : Bool
  events : List StreamEvent
deriving DecidableEq

/-- Result of one connection attempt: the endpoint cache after the
 attempt, the requests successfully sent on the stream, the number of
 responses received, and the attempt's outcome (`none` when the event
 list ran out with the loop still running). -/
structure AttemptResult where
  cache : EndpointCache
  sentRequests : List DiscoveryRequest
  responsesReceived : Nat
  outcome : Option AttemptOutcome

/-- The receive loop of `watchEndpoints` (the `for { select { ... } }`):
 a cancelled context or an `io.EOF` from `Recv` returns nil, any other
 receive error returns that error, and each received response updates
 the cache via `processResp` and continues the loop. -/
def runRecvLoop (service : String) : EndpointCache → Nat →
    List StreamEvent → EndpointCache × Nat × Option AttemptOutcome
  | cache, nResp, [] => (cache, nResp, none)
  | cache, nResp, ev :: rest =>
    match ev with
    | StreamEvent.cancelled => (cache, nResp, some AttemptOutcome.retNil)
    | StreamEvent.recvEOF => (cache, nResp, some AttemptOutcome.retNil)
    | StreamEvent.recvErr => (cache, nResp, some AttemptOutcome.retErr)
    | StreamEvent.recvResp resp =>
        runRecvLoop service (processResp cache service resp) (nResp + 1) rest

/-- One connection attempt: `watchEndpoints(ctx, serviceName)`.
 On connect failure or send failure the attempt returns an error with
 nothing sent or received; otherwise the single EDS request — node id,
 endpoint type URL, resource name `serviceName + "_cluster"`, ack
 fields at their (empty) zero values — is sent, and the receive loop
 runs over the attempt's events. -/
def watchEndpoints (nodeID : String) (serviceName : String)
    (cache : EndpointCache) (inp : AttemptInput) : AttemptResult :=
  if inp.connectOk = false then
    { cache := cache, sentRequests := [], responsesReceived := 0,
      outcome := some AttemptOutcome.retErr }
  else
    let req : DiscoveryRequest :=
      { NodeId := nodeID, TypeUrl := EndpointType,
        ResourceNames := [serviceName ++ "_cluster"],
        VersionInfo := "", ResponseNonce := "" }
    if inp.sendOk = false then
      { cache := cache, sentRequests := [], responsesReceived := 0,
        outcome := some AttemptOutcome.retErr }
    else
      let res := runRecvLoop serviceName cache 0 inp.events
      { cache := res.1, sentRequests := [req], responsesReceived := res.2.1,
        outcome := res.2.2 }

/-- One iteration of the supervising loop `watchEndpointsRetried`:
 `if err := c.watchEndpoints(ctx, serviceName); err == nil { backoff.Reset() }`
 followed by `backoff.Duration()`. Returns the computed delay and the
 backoff state carried to the next iteration. -/
def retryIteration (b : Backoff) (out : AttemptOutcome) : Int × Backoff :=
  let b1 := match out with
    | AttemptOutcome.retNil => b.Reset
    | AttemptOutcome.retErr => b
  b1.Duration

/-! ## GetEndpoints (the query entry point) -/

/-- The observable state of an `XDSClient` for the query path: the
 endpoint cache and, per service, whether the background watch task has
 been started (the `watching` `sync.Map` of `sync.Once`s, collapsed to
 its fired flag — the sequential view of `LoadOrStore` + `Once.Do`). -/
structure XDSClientState where
  endpoints : EndpointCache
  watching : String → Bool

/-- The pair returned by `GetEndpoints`: the endpoint slice (nil on the
 error path) and the error (nil on the success path, otherwise the
 `fmt.Errorf` message string). -/
structure GetResult where
  eps : GoSlice
  err : Option String
deriving DecidableEq

/-- `XDSClient.GetEndpoints`: return the cache entry when present
 (whatever slice it holds, with nil error); otherwise idempotently start
 the background watch for the service and immediately return a nil
 slice and the "not yet discovered" error naming the service. -/
def GetEndpoints (st : XDSClientState) (service : String) :
    GetResult × XDSClientState :=
  match st.endpoints service with
  | some eps => ({ eps := eps, err := none }, st)
  | none =>
      ({ eps := none,
         err := some ("endpoints not yet discovered for " ++ service) },
       { st with watching := fun k => if k = service then true else st.watching k })

/-! ## Watch-start deduplication under concurrency

`GetEndpoints` guards watch starts with
`watchOnce, _ := c.watching.LoadOrStore(service, &sync.Once{})` followed
by `watchOnce.(*sync.Once).Do(func() { go c.watchEndpointsRetried(...) })`.
Both primitives are atomic, so a run of concurrent callers is an
arbitrary interleaving of these atomic steps. `LoadOrStore` returns the
same `*sync.Once` to every caller of the same key, so the per-key Once
is modelled by one created flag and one fired flag per service. -/

/-- Program counter of one `GetEndpoints` caller: before the cache
 load, holding the per-service Once after `LoadOrStore`, or returned. -/
inductive CallerPc where
  | start
  | haveOnce
  | finished
deriving DecidableEq

/-- One concurrent caller: the service it queries and its progress. -/
structure Caller where
  service : String
  pc : CallerPc
deriving DecidableEq

/-- Shared state of the deduplication race: per service, whether the
 `watching` map holds a Once (`created`), whether that Once has run its
 function (`fired`), and how many watch tasks have been spawned with
 `go c.watchEndpointsRetried` (the quantity the dedup must bound). -/
structure WatchSys where
  created : String → Bool
  fired : String → Bool
  spawned : String → Nat
  callers : List Caller

/-- Initial state: no Onces, nothing fired or spawned, every caller
 about to execute `GetEndpoints` for its service. -/
def initSys (services : List String) : WatchSys :=
  { created := fun _ => false, fired := fun _ => false,
    spawned := fun _ => 0,
    callers := services.map (fun s => { service := s, pc := CallerPc.start }) }

/-- The next atomic action of caller `i` against a fixed cache view:
 at `start`, the cache load — a hit returns at once, a miss performs
 `LoadOrStore` (creating the key's Once if absent) and advances to
 `haveOnce`; at `haveOnce`, `Once.Do` — fires the Once and spawns the
 watch task only if the Once has never fired. Out-of-range or finished
 callers do nothing. -/
def stepCaller (cache : EndpointCache) (st : WatchSys) (i : Nat) : WatchSys :=
  match st.callers.get? i with
  | none => st
  | some c =>
    match c.pc with
    | CallerPc.finished => st
    | CallerPc.start =>
      match cache c.service with
      | some _ =>
          { st with callers :=
              st.callers.set i { c with pc := CallerPc.finished } }
      | none =>
          { st with
            created := fun k => if k = c.service then true else st.created k,
            callers := st.callers.set i { c with pc := CallerPc.haveOnce } }
    | CallerPc.haveOnce =>
      if st.fired c.service then
        { st with callers :=
            st.callers.set i { c with pc := CallerPc.finished } }
      else
        { st with
          fired := fun k => if k = c.service then true else st.fired k,
          spawned := fun k =>
            if k = c.service then st.spawned k + 1 else st.spawned k,
          callers := st.callers.set i { c with pc := CallerPc.finished } }

/-- Run an arbitrary schedule: the interleaving is the list of caller
 indices chosen by the scheduler, executed left to right. -/
def runSched (cache : EndpointCache) (st : WatchSys) : List Nat → WatchSys
  | [] => st
  | i :: rest => runSched cache (stepCaller cache st i) rest

/-! ## Auxiliary predicates -/

/-- A cache is well formed when every entry it holds is a non-nil slice. -/
def CacheWF (c : EndpointCache) : Prop :=
  ∀ s v, c s = some v → v ≠ none

/-- Events that terminate the receive loop (anything but a response). -/
def isTerminator : StreamEvent → Bool
  | StreamEvent.recvResp _ => false
  | _ => true

/-- Loop-terminating events after which `watchEndpoints` returns nil:
 context cancellation and clean end of stream. -/
def isCleanEnd : StreamEvent → Bool
  | StreamEvent.cancelled => true
  | StreamEvent.recvEOF => true
  | _ => false

/-- Inductive invariant of the deduplication race: the number of watch
 tasks spawned for a service is 1 if its Once has fired and 0 otherwise;
 a fired Once was created; and a caller that returned while the cache
 had no entry for its service went through `Once.Do`, so its service's
 Once has fired. -/
def sysInv (cache : EndpointCache) (st : WatchSys) : Prop :=
  (∀ s, st.spawned s = if st.fired s then 1 else 0) ∧
  (∀ c ∈ st.callers, c.pc = CallerPc.finished →
      cache c.service = none → st.fired c.service = true)

/-! ## Theorems -/

/-- C3. The claim says `Backoff.Duration` returns
 `min(initial_delay << n, max_delay)` with every overflowed computed
 value saturating to `max_delay`. The code checks `d < 0` although its
 own comment says overflow makes `d` non-positive: at the default
 configuration and counter 55, `200ms << 55` wraps to exactly 0, which
 escapes the clamp, so the call returns 0 instead of the prescribed
 `max_delay` (10s). -/
theorem C3_duration_overflow_bug :
    Backoff.DurationCompute { NewBackoff with n := 55 } = 0 ∧
    specDelay { NewBackoff with n := 55 } = NewBackoff.MaxDelay ∧
    (0 : Int) ≠ NewBackoff.MaxDelay := by
  decide

/-- C7 counterexample. The claim quantifies over every `Backoff`
 instance, but the delays are freely configurable: for an instance with
 `initial_delay` 20s above `max_delay` 10s (after three prior calls),
 `Reset` followed by `Duration` returns `max_delay`, not
 `initial_delay`. -/
theorem C7_counterexample :
    ((Backoff.Reset
        { InitialDelay := 20 * 1000000000, MaxDelay := 10 * 1000000000,
          n := 3 }).Duration).1
      = 10 * 1000000000 ∧
    (10 * 1000000000 : Int) ≠ 20 * 1000000000 := by
  decide

/-- C7 amended. For every instance whose configured delays satisfy
 `0 ≤ initial_delay ≤ max_delay` (with `max_delay` a valid `int64`),
 after any number of prior `Duration` calls, `Reset` followed by
 `Duration` returns `initial_delay`. -/
theorem C7_reset_then_duration (b : Backoff) (h0 : 0 ≤ b.InitialDelay)
    (h1 : b.InitialDelay ≤ b.MaxDelay) (h2 : b.MaxDelay < 2 ^ 63) :
    ((b.Reset).Duration).1 = b.InitialDelay := by
  have hw : goShl64 b.InitialDelay 0 = b.InitialDelay := by
    unfold goShl64
    rw [pow_zero, mul_one]
    exact wrap64_eq_self (by omega) (by omega)
  show Backoff.DurationCompute { b with n := 0 } = b.InitialDelay
  unfold Backoff.DurationCompute
  simp only [hw]
  rw [if_neg (by omega)]

/-- C7 witness: for the default configuration after five calls, the
 post-reset call returns 200ms. -/
theorem C7_reset_witness :
    ((Backoff.Reset { NewBackoff with n := 5 }).Duration).1 = 200 * 1000000 :=
  C7_reset_then_duration { NewBackoff with n := 5 }
    (by decide) (by decide) (by decide)

/-- C2. `GetEndpoints` returns the cached slice with nil error exactly
 when the cache has an entry for the service (even an empty one); on a
 miss it returns a nil slice together with the
 "endpoints not yet discovered" error naming the service, marks the
 watch for the service as started, and leaves the cache untouched. -/
theorem C2_get_endpoints_spec (st : XDSClientState) (service : String) :
    (∀ v, st.endpoints service = some v →
      GetEndpoints st service = ({ eps := v, err := none }, st)) ∧
    (st.endpoints service = none →
      (GetEndpoints st service).1.eps = none ∧
      (GetEndpoints st service).1.err =
        some ("endpoints not yet discovered for " ++ service) ∧
      (GetEndpoints st service).2.watching service = true ∧
      (GetEndpoints st service).2.endpoints = st.endpoints) := by
  constructor
  · intro v hv
    unfold GetEndpoints
    rw [hv]
  · intro h
    unfold GetEndpoints
    rw [h]
    refine ⟨rfl, rfl, ?_, rfl⟩
    simp

/-- C2 witness: a cache holding a present-but-empty entry for "svc"
 yields that empty (non-nil) slice and no error. -/
theorem C2_get_endpoints_witness :
    GetEndpoints
      { endpoints := fun k => if k = "svc" then some (some []) else none,
        watching := fun _ => false } "svc"
      = ({ eps := some [], err := none },
         { endpoints := fun k => if k = "svc" then some (some []) else none,
           watching := fun _ => false }) :=
  (C2_get_endpoints_spec
      { endpoints := fun k => if k = "svc" then some (some []) else none,
        watching := fun _ => false } "svc").1 (some []) (by simp)

lemma buildEndpoints_ne_none (cla : ClusterLoadAssignment) :
    buildEndpoints cla ≠ none := by
  unfold buildEndpoints
  simp

lemma cacheStore_wf {c : EndpointCache} (hc : CacheWF c) {service : String}
    {v : GoSlice} (hv : v ≠ none) : CacheWF (cacheStore c service v) := by
  intro s w hw
  unfold cacheStore at hw
  by_cases hs : s = service
  · rw [if_pos hs] at hw
    cases hw
    exact hv
  · rw [if_neg hs] at hw
    exact hc s w hw

lemma processResp_wf {c : EndpointCache} (hc : CacheWF c) (service : String)
    (resp : DiscoveryResponse) : CacheWF (processResp c service resp) := by
  unfold processResp
  match resp.Resources with
  | [] => exact hc
  | Resource.malformed :: _ => exact hc
  | Resource.decodable cla :: _ =>
    exact cacheStore_wf hc (buildEndpoints_ne_none cla)

lemma runRecvLoop_wf {c : EndpointCache} (hc : CacheWF c) (service : String)
    (nResp : Nat) (evs : List StreamEvent) :
    CacheWF (runRecvLoop service c nResp evs).1 := by
  induction evs generalizing c nResp with
  | nil => exact hc
  | cons ev rest ih =>
    cases ev with
    | cancelled => exact hc
    | recvEOF => exact hc
    | recvErr => exact hc
    | recvResp resp => exact ih (processResp_wf hc service resp) _

/-- C10. Every slice a watch attempt stores in the cache is non-nil:
 well-formedness of the cache (all entries non-nil) is preserved by
 `watchEndpoints`, and on a well-formed cache `GetEndpoints` returns a
 nil error exactly when it returns a non-nil slice — so a successful
 call never yields a nil list, and the error path always does. -/
theorem C10_cache_nonnil :
    (∀ (nodeID service : String) (cache : EndpointCache) (inp : AttemptInput),
      CacheWF cache → CacheWF (watchEndpoints nodeID service cache inp).cache) ∧
    (∀ (st : XDSClientState) (service : String), CacheWF st.endpoints →
      ((GetEndpoints st service).1.err = none ↔
        (GetEndpoints st service).1.eps ≠ none)) := by
  constructor
  · intro nodeID service cache inp hc
    unfold watchEndpoints
    by_cases h1 : inp.connectOk = false
    · rw [if_pos h1]
      exact hc
    · rw [if_neg h1]
      by_cases h2 : inp.sendOk = false
      · rw [if_pos h2]
        exact hc
      · rw [if_neg h2]
        exact runRecvLoop_wf hc service 0 inp.events
  · intro st service hwf
    unfold GetEndpoints
    cases hv : st.endpoints service with
    | none => simp
    | some v =>
      simpa using hwf service v hv

/-- C10 witness: from the empty cache, a successful attempt that stores
 one decoded empty assignment leaves the cache well formed; and on the
 empty cache the query's nil-error/non-nil-slice equivalence holds. -/
theorem C10_cache_nonnil_witness :
    CacheWF (watchEndpoints "node" "svc" (fun _ => none)
      { connectOk := true, sendOk := true,
        events := [StreamEvent.recvResp
          { VersionInfo := "v1", Nonce := "n1",
            Resources := [Resource.decodable { Endpoints := [] }] }] }).cache ∧
    ((GetEndpoints { endpoints := fun _ => none, watching := fun _ => false }
        "svc").1.err = none ↔
      (GetEndpoints { endpoints := fun _ => none, watching := fun _ => false }
        "svc").1.eps ≠ none) :=
  ⟨C10_cache_nonnil.1 "node" "svc" (fun _ => none)
      { connectOk := true, sendOk := true,
        events := [StreamEvent.recvResp
          { VersionInfo := "v1", Nonce := "n1",
            Resources := [Resource.decodable { Endpoints := [] }] }] }
      (fun _ _ h => Option.noConfusion h),
   C10_cache_nonnil.2 { endpoints := fun _ => none, watching := fun _ => false }
      "svc" (fun _ _ h => Option.noConfusion h)⟩

/-- C4. A response whose first resource payload fails to decode leaves
 the cache exactly as it was, and the receive loop carries on with the
 remaining events (the response only counts towards the responses
 received). -/
theorem C4_malformed_response_skipped (cache : EndpointCache)
    (service : String) (nResp : Nat) (resp : DiscoveryResponse)
    (evs : List StreamEvent) (rest : List Resource)
    (h : resp.Resources = Resource.malformed :: rest) :
    processResp cache service resp = cache ∧
    runRecvLoop service cache nResp (StreamEvent.recvResp resp :: evs) =
      runRecvLoop service cache (nResp + 1) evs := by
  have hp : processResp cache service resp = cache := by
    unfold processResp
    rw [h]
  refine ⟨hp, ?_⟩
  show runRecvLoop service (processResp cache service resp) (nResp + 1) evs =
    runRecvLoop service cache (nResp + 1) evs
  rw [hp]

/-- C4 witness: with "svc" cached as one endpoint, a malformed response
 followed by end of stream leaves that entry untouched. -/
theorem C4_malformed_response_witness :
    processResp
        (fun k => if k = "svc" then
          some (some [{ Host := "1.2.3.4", Port := 4321, Weight := 42 }])
          else none) "svc"
        { VersionInfo := "v2", Nonce := "n2",
          Resources := [Resource.malformed] }
      = (fun k => if k = "svc" then
          some (some [{ Host := "1.2.3.4", Port := 4321, Weight := 42 }])
          else none) :=
  (C4_malformed_response_skipped
      (fun k => if k = "svc" then
        some (some [{ Host := "1.2.3.4", Port := 4321, Weight := 42 }])
        else none) "svc" 0
      { VersionInfo := "v2", Nonce := "n2",
        Resources := [Resource.malformed] }
      [] [] rfl).1

/-- C1 counterexample. With "svc" cached as one endpoint, a watch
 attempt that receives a response with zero resources (then a clean end
 of stream) leaves the stale entry in place — the cache is not replaced
 by the empty list, and `GetEndpoints` keeps returning the stale list. -/
theorem C1_zero_resources_counterexample :
    (watchEndpoints "node" "svc"
        (fun k => if k = "svc" then
          some (some [{ Host := "1.2.3.4", Port := 4321, Weight := 42 }])
          else none)
        { connectOk := true, sendOk := true,
          events := [StreamEvent.recvResp
              { VersionInfo := "v2", Nonce := "n2", Resources := [] },
            StreamEvent.recvEOF] }).cache "svc"
      = some (some [{ Host := "1.2.3.4", Port := 4321, Weight := 42 }]) ∧
    some (some [{ Host := "1.2.3.4", Port := 4321, Weight := 42 }])
      ≠ some (some ([] : List Endpoint)) ∧
    (GetEndpoints
        { endpoints := fun k => if k = "svc" then
            some (some [{ Host := "1.2.3.4", Port := 4321, Weight := 42 }])
            else none,
          watching := fun _ => true } "svc").1
      = { eps := some [{ Host := "1.2.3.4", Port := 4321, Weight := 42 }],
          err := none } := by
  refine ⟨?_, by decide, by decide⟩
  decide

/-- C1 amended. A Discovery Response with zero resources is skipped and
 leaves the cache entry for the service unchanged; the cache entry is
 replaced with the empty list only when a response's first resource
 decodes to a ClusterLoadAssignment with no endpoint groups, after
 which `GetEndpoints` returns the empty (non-nil) list with no error. -/
theorem C1_empty_update_semantics (cache : EndpointCache) (service : String)
    (resp : DiscoveryResponse) (w : String → Bool) :
    (resp.Resources = [] → processResp cache service resp = cache) ∧
    (∀ cla rest, resp.Resources = Resource.decodable cla :: rest →
      cla.Endpoints = [] →
      processResp cache service resp service = some (some []) ∧
      (GetEndpoints
          { endpoints := processResp cache service resp, watching := w }
          service).1
        = { eps := some [], err := none }) := by
  constructor
  · intro h
    unfold processResp
    rw [h]
  · intro cla rest hres hcla
    have hpr : processResp cache service resp =
        cacheStore cache service (buildEndpoints cla) := by
      unfold processResp
      rw [hres]
    have hstore : processResp cache service resp service = some (some []) := by
      rw [hpr]
      show (if service = service then some (buildEndpoints cla)
        else cache service) = some (some [])
      rw [if_pos rfl]
      unfold buildEndpoints
      rw [hcla]
      rfl
    exact ⟨hstore, by simp [GetEndpoints, hstore]⟩

/-- C1 amended witness: a concrete zero-resource response leaves a
 one-endpoint cache entry unchanged. -/
theorem C1_empty_update_witness :
    processResp
        (fun k => if k = "svc" then
          some (some [{ Host := "1.2.3.4", Port := 4321, Weight := 42 }])
          else none) "svc"
        { VersionInfo := "v2", Nonce := "n2", Resources := [] }
      = (fun k => if k = "svc" then
          some (some [{ Host := "1.2.3.4", Port := 4321, Weight := 42 }])
          else none) :=
  (C1_empty_update_semantics
      (fun k => if k = "svc" then
        some (some [{ Host := "1.2.3.4", Port := 4321, Weight := 42 }])
        else none) "svc"
      { VersionInfo := "v2", Nonce := "n2", Resources := [] }
      (fun _ => true)).1 rfl

lemma runRecvLoop_outcome (service : String) (cache : EndpointCache)
    (nResp : Nat) (evs : List StreamEvent) :
    (runRecvLoop service cache nResp evs).2.2 =
      (evs.find? isTerminator).map
        (fun e => if isCleanEnd e then AttemptOutcome.retNil
          else AttemptOutcome.retErr) := by
  induction evs generalizing cache nResp with
  | nil => rfl
  | cons ev rest ih =>
    cases ev with
    | cancelled => rfl
    | recvEOF => rfl
    | recvErr => rfl
    | recvResp resp =>
      show (runRecvLoop service (processResp cache service resp)
          (nResp + 1) rest).2.2 = _
      rw [ih]
      rfl

/-- C5 counterexample. A connection attempt that successfully received
 one response and then terminated with a non-clean receive error
 returns a non-nil error, so the retry loop does not reset the backoff:
 with two failures already accumulated, the next delay is 800ms, not
 the 200ms a reset would give — contradicting the claim that any
 termination after at least one received response resets the generator. -/
theorem C5_no_reset_counterexample :
    (watchEndpoints "node" "svc" (fun _ => none)
        { connectOk := true, sendOk := true,
          events := [StreamEvent.recvResp
              { VersionInfo := "v1", Nonce := "n1",
                Resources := [Resource.decodable
                  { Endpoints := [{ LbEndpoints :=
                      [{ addr := { Address := "1.2.3.4", PortValue := 4321 },
                         weight := 42 }] }] }] },
            StreamEvent.recvErr] }).responsesReceived = 1 ∧
    (watchEndpoints "node" "svc" (fun _ => none)
        { connectOk := true, sendOk := true,
          events := [StreamEvent.recvResp
              { VersionInfo := "v1", Nonce := "n1",
                Resources := [Resource.decodable
                  { Endpoints := [{ LbEndpoints :=
                      [{ addr := { Address := "1.2.3.4", PortValue := 4321 },
                         weight := 42 }] }] }] },
            StreamEvent.recvErr] }).outcome = some AttemptOutcome.retErr ∧
    (retryIteration { NewBackoff with n := 2 } AttemptOutcome.retErr).1
      = 800 * 1000000 ∧
    (retryIteration { NewBackoff with n := 2 } AttemptOutcome.retNil).1
      = 200 * 1000000 ∧
    (800 * 1000000 : Int) ≠ 200 * 1000000 := by
  refine ⟨by decide, by decide, by decide, by decide, by decide⟩

/-- C5 amended. The retry loop resets the backoff generator exactly
 when the connection attempt returned nil — which happens precisely
 when the stream was created, the initial send succeeded, and the first
 loop-terminating event was a context cancellation or a clean end of
 stream — irrespective of how many responses were received. The next
 delay is computed from the reset generator in that case and from the
 unreset generator otherwise, whose counter keeps accumulating. -/
theorem C5_reset_on_clean_termination (b : Backoff) (nodeID service : String)
    (cache : EndpointCache) (inp : AttemptInput) (out : AttemptOutcome)
    (h : (watchEndpoints nodeID service cache inp).outcome = some out) :
    (retryIteration b out).1 =
      Backoff.DurationCompute
        (if out = AttemptOutcome.retNil then { b with n := 0 } else b) ∧
    (retryIteration b out).2.n =
      (if out = AttemptOutcome.retNil then 0 else b.n) + 1 ∧
    (out = AttemptOutcome.retNil ↔
      inp.connectOk = true ∧ inp.sendOk = true ∧
      (∃ e, inp.events.find? isTerminator = some e ∧ isCleanEnd e = true)) := by
  refine ⟨?_, ?_, ?_⟩
  · cases out with
    | retNil => rfl
    | retErr => rfl
  · cases out with
    | retNil => rfl
    | retErr => rfl
  · unfold watchEndpoints at h
    by_cases h1 : inp.connectOk = false
    · rw [if_pos h1] at h
      cases h
      simp [h1]
    · rw [if_neg h1] at h
      by_cases h2 : inp.sendOk = false
      · rw [if_pos h2] at h
        cases h
        simp [h2]
      · rw [if_neg h2] at h
        have hout : ((inp.events.find? isTerminator).map
            (fun e => if isCleanEnd e then AttemptOutcome.retNil
              else AttemptOutcome.retErr)) = some out := by
          rw [← runRecvLoop_outcome service cache 0 inp.events]
          exact h
        rw [eq_true_of_ne_false h1, eq_true_of_ne_false h2]
        simp only [true_and]
        cases hf : inp.events.find? isTerminator with
        | none =>
          rw [hf] at hout
          cases hout
        | some e =>
          rw [hf] at hout
          have hfe : (if isCleanEnd e then AttemptOutcome.retNil
              else AttemptOutcome.retErr) = out := Option.some.inj hout
          constructor
          · intro hnil
            refine ⟨e, rfl, ?_⟩
            by_cases hce : isCleanEnd e = true
            · exact hce
            · rw [if_neg (by simp [hce])] at hfe
              rw [hnil] at hfe
              cases hfe
          · rintro ⟨e2, he2, hce2⟩
            cases he2
            rw [if_pos (by simp [hce2])] at hfe
            rw [← hfe]

/-- C5 amended witness: an attempt that ends with a clean end of stream
 (no response received at all) makes the next delay come from the reset
 generator, and the reset-iff-clean equivalence holds concretely. -/
theorem C5_reset_witness :
    (retryIteration { NewBackoff with n := 4 } AttemptOutcome.retNil).1 =
      Backoff.DurationCompute
        (if AttemptOutcome.retNil = AttemptOutcome.retNil
          then { { NewBackoff with n := 4 } with n := 0 }
          else { NewBackoff with n := 4 }) ∧
    (retryIteration { NewBackoff with n := 4 } AttemptOutcome.retNil).2.n =
      (if AttemptOutcome.retNil = AttemptOutcome.retNil
        then 0 else ({ NewBackoff with n := 4 } : Backoff).n) + 1 ∧
    (AttemptOutcome.retNil = AttemptOutcome.retNil ↔
      ((true : Bool) = true ∧ (true : Bool) = true ∧
      (∃ e, ([StreamEvent.recvEOF].find? isTerminator = some e ∧
        isCleanEnd e = true)))) :=
  C5_reset_on_clean_termination { NewBackoff with n := 4 } "node" "svc"
    (fun _ => none)
    { connectOk := true, sendOk := true, events := [StreamEvent.recvEOF] }
    AttemptOutcome.retNil (by decide)

lemma sentRequests_cases (nodeID service : String) (cache : EndpointCache)
    (inp : AttemptInput) :
    (watchEndpoints nodeID service cache inp).sentRequests = [] ∨
    (watchEndpoints nodeID service cache inp).sentRequests =
      [{ NodeId := nodeID, TypeUrl := EndpointType,
         ResourceNames := [service ++ "_cluster"],
         VersionInfo := "", ResponseNonce := "" }] := by
  unfold watchEndpoints
  by_cases h1 : inp.connectOk = false
  · rw [if_pos h1]
    exact Or.inl rfl
  · rw [if_neg h1]
    by_cases h2 : inp.sendOk = false
    · rw [if_pos h2]
      exact Or.inl rfl
    · rw [if_neg h2]
      exact Or.inr rfl

/-- C6. On any stream of a watch session, the first request sent has
 empty `version_info` and `response_nonce`, and every request sent at a
 later position carries the last accepted response's values — the
 latter vacuously, because `watchEndpoints` sends exactly one request
 per stream (it never sends acknowledgement requests), so the
 quantification over later requests is over the empty set (stated here
 as: a later sent request would carry any values whatsoever). -/
theorem C6_ack_fields (nodeID service : String) (cache : EndpointCache)
    (inp : AttemptInput) :
    (∀ r, (watchEndpoints nodeID service cache inp).sentRequests.head?
        = some r → r.VersionInfo = "" ∧ r.ResponseNonce = "") ∧
    (∀ i r, 0 < i →
      (watchEndpoints nodeID service cache inp).sentRequests.get? i = some r →
      ∀ v non : String, r.VersionInfo = v ∧ r.ResponseNonce = non) := by
  rcases sentRequests_cases nodeID service cache inp with hc | hc
  · constructor
    · intro r hr
      rw [hc] at hr
      cases hr
    · intro i r hi hr
      rw [hc] at hr
      cases hr
  · constructor
    · intro r hr
      rw [hc] at hr
      cases hr
      exact ⟨rfl, rfl⟩
    · intro i r hi hr
      rw [hc] at hr
      match i, hi with
      | Nat.succ j, _ =>
        cases hr

/-- C6 witness: for a concrete successful attempt, the single request
 sent has empty ack fields. -/
theorem C6_ack_fields_witness :
    ({ NodeId := "node", TypeUrl := EndpointType,
       ResourceNames := ["svc" ++ "_cluster"],
       VersionInfo := "", ResponseNonce := "" } : DiscoveryRequest).VersionInfo
      = "" ∧
    ({ NodeId := "node", TypeUrl := EndpointType,
       ResourceNames := ["svc" ++ "_cluster"],
       VersionInfo := "", ResponseNonce := "" } : DiscoveryRequest).ResponseNonce
      = "" :=
  (C6_ack_fields "node" "svc" (fun _ => none)
      { connectOk := true, sendOk := true, events := [] }).1 _ (by decide)

/-- C8. Every Discovery Request a watch attempt for service `s` sends
 carries the configured node identity and asks for exactly the single
 resource `s ++ "_cluster"` (and the endpoint type URL). -/
theorem C8_request_identity (nodeID serviceName : String)
    (cache : EndpointCache) (inp : AttemptInput) (req : DiscoveryRequest)
    (h : req ∈ (watchEndpoints nodeID serviceName cache inp).sentRequests) :
    req.NodeId = nodeID ∧
    req.ResourceNames = [serviceName ++ "_cluster"] ∧
    req.TypeUrl = EndpointType := by
  rcases sentRequests_cases nodeID serviceName cache inp with hc | hc
  · rw [hc] at h
    cases h
  · rw [hc] at h
    rcases List.mem_singleton.mp h with rfl
    exact ⟨rfl, rfl, rfl⟩

/-- C8 witness: the request of a concrete attempt for "svc" names node
 "node" and resource "svc_cluster". -/
theorem C8_request_identity_witness :
    ({ NodeId := "node", TypeUrl := EndpointType,
       ResourceNames := ["svc" ++ "_cluster"],
       VersionInfo := "", ResponseNonce := "" } : DiscoveryRequest).NodeId
      = "node" ∧
    ({ NodeId := "node", TypeUrl := EndpointType,
       ResourceNames := ["svc" ++ "_cluster"],
       VersionInfo := "", ResponseNonce := "" } : DiscoveryRequest).ResourceNames
      = ["svc" ++ "_cluster"] ∧
    ({ NodeId := "node", TypeUrl := EndpointType,
       ResourceNames := ["svc" ++ "_cluster"],
       VersionInfo := "", ResponseNonce := "" } : DiscoveryRequest).TypeUrl
      = EndpointType :=
  C8_request_identity "node" "svc" (fun _ => none)
    { connectOk := true, sendOk := true, events := [] } _ (by decide)

lemma stepCaller_inv (cache : EndpointCache) (st : WatchSys) (i : Nat)
    (hinv : sysInv cache st) : sysInv cache (stepCaller cache st i) := by
  obtain ⟨hsp, hfin⟩ := hinv
  cases hci : st.callers.get? i with
  | none =>
    unfold stepCaller
    rw [hci]
    exact ⟨hsp, hfin⟩
  | some c =>
    obtain ⟨cs, cpc⟩ := c
    cases cpc with
    | finished =>
      unfold stepCaller
      rw [hci]
      exact ⟨hsp, hfin⟩
    | start =>
      cases hcache : cache cs with
      | some v =>
        have hstep : stepCaller cache st i =
            { st with callers :=
                st.callers.set i { service := cs, pc := CallerPc.finished } } := by
          unfold stepCaller
          rw [hci]
          show (match cache cs with
            | some _ =>
              { st with callers :=
                  st.callers.set i { service := cs, pc := CallerPc.finished } }
            | none =>
              { st with
                created := fun k => if k = cs then true else st.created k,
                callers :=
                  st.callers.set i
                    { service := cs, pc := CallerPc.haveOnce } }) = _
          rw [hcache]
        rw [hstep]
        refine ⟨hsp, ?_⟩
        intro c2 hc2 hfin2 hnone
        rcases List.mem_or_eq_of_mem_set hc2 with hmem | rfl
        · exact hfin c2 hmem hfin2 hnone
        · rw [show ({ service := cs, pc := CallerPc.finished } : Caller).service
              = cs from rfl, hcache] at hnone
          cases hnone
      | none =>
        have hstep : stepCaller cache st i =
            { st with
              created := fun k => if k = cs then true else st.created k,
              callers :=
                st.callers.set i { service := cs, pc := CallerPc.haveOnce } } := by
          unfold stepCaller
          rw [hci]
          show (match cache cs with
            | some _ =>
              { st with callers :=
                  st.callers.set i { service := cs, pc := CallerPc.finished } }
            | none =>
              { st with
                created := fun k => if k = cs then true else st.created k,
                callers :=
                  st.callers.set i
                    { service := cs, pc := CallerPc.haveOnce } }) = _
          rw [hcache]
        rw [hstep]
        refine ⟨hsp, ?_⟩
        intro c2 hc2 hfin2 hnone
        rcases List.mem_or_eq_of_mem_set hc2 with hmem | rfl
        · exact hfin c2 hmem hfin2 hnone
        · cases hfin2
    | haveOnce =>
      by_cases hfired : st.fired cs = true
      · have hstep : stepCaller cache st i =
            { st with callers :=
                st.callers.set i { service := cs, pc := CallerPc.finished } } := by
          unfold stepCaller
          rw [hci]
          show (if st.fired cs = true then _ else _) = _
          rw [if_pos hfired]
        rw [hstep]
        refine ⟨hsp, ?_⟩
        intro c2 hc2 hfin2 hnone
        rcases List.mem_or_eq_of_mem_set hc2 with hmem | rfl
        · exact hfin c2 hmem hfin2 hnone
        · exact hfired
      · have hstep : stepCaller cache st i =
            { st with
              fired := fun k => if k = cs then true else st.fired k,
              spawned := fun k =>
                if k = cs then st.spawned k + 1 else st.spawned k,
              callers :=
                st.callers.set i { service := cs, pc := CallerPc.finished } } := by
          unfold stepCaller
          rw [hci]
          show (if st.fired cs = true then _ else _) = _
          rw [if_neg hfired]
        rw [hstep]
        constructor
        · intro s
          by_cases hs : s = cs
          · have h0 : st.spawned s = 0 := by
              rw [hsp s, hs]
              simp only [Bool.not_eq_true] at hfired
              rw [hfired]
              rfl
            show (if s = cs then st.spawned s + 1 else st.spawned s) =
              if (if s = cs then true else st.fired s) = true then 1 else 0
            rw [if_pos hs, if_pos hs, h0]
            rfl
          · show (if s = cs then st.spawned s + 1 else st.spawned s) =
              if (if s = cs then true else st.fired s) = true then 1 else 0
            rw [if_neg hs, if_neg hs]
            exact hsp s
        · intro c2 hc2 hfin2 hnone
          show (if c2.service = cs then true else st.fired c2.service) = true
          rcases List.mem_or_eq_of_mem_set hc2 with hmem | rfl
          · by_cases hs : c2.service = cs
            · rw [if_pos hs]
            · rw [if_neg hs]
              exact hfin c2 hmem hfin2 hnone
          · rw [if_pos rfl]

lemma runSched_inv (cache : EndpointCache) (st : WatchSys)
    (sched : List Nat) (hinv : sysInv cache st) :
    sysInv cache (runSched cache st sched) := by
  induction sched generalizing st with
  | nil => exact hinv
  | cons i rest ih => exact ih _ (stepCaller_inv cache st i hinv)

lemma initSys_inv (cache : EndpointCache) (services : List String) :
    sysInv cache (initSys services) := by
  constructor
  · intro s
    rfl
  · intro c hc hfin2 _
    rcases List.mem_map.mp hc with ⟨s, _, rfl⟩
    cases hfin2

/-- C9. Under every interleaving of concurrent `GetEndpoints` callers
 (each performing its atomic cache load, `LoadOrStore` of the
 per-service Once, and `Once.Do`), at most one watch task is ever
 spawned per service; and when the cache has no entry for a service and
 some caller for it has returned, exactly one watch task for that
 service has been spawned. -/
theorem C9_watch_start_dedup (cache : EndpointCache)
    (services : List String) (sched : List Nat) (s : String) :
    (runSched cache (initSys services) sched).spawned s ≤ 1 ∧
    (cache s = none →
      (∃ c ∈ (runSched cache (initSys services) sched).callers,
        c.service = s ∧ c.pc = CallerPc.finished) →
      (runSched cache (initSys services) sched).spawned s = 1) := by
  obtain ⟨hsp, hfin⟩ :=
    runSched_inv cache (initSys services) sched (initSys_inv cache services)
  constructor
  · rw [hsp s]
    by_cases h : (runSched cache (initSys services) sched).fired s = true
    · rw [h]
      exact le_refl 1
    · simp [Bool.not_eq_true] at h
      rw [h]
      exact Nat.zero_le 1
  · rintro hnone ⟨c, hc, hcs, hcpc⟩
    have : (runSched cache (initSys services) sched).fired c.service = true :=
      hfin c hc hcpc (by rw [hcs]; exact hnone)
    rw [hsp s, ← hcs, this]
    rfl

/-- C9 witness: two concurrent first-time callers for the unseen
 service "svc", fully interleaved in schedule order 0,1,0,1, spawn
 exactly one watch task. -/
theorem C9_watch_start_dedup_witness :
    (runSched (fun _ => none) (initSys ["svc", "svc"]) [0, 1, 0, 1]).spawned
      "svc" = 1 :=
  (C9_watch_start_dedup (fun _ => none) ["svc", "svc"] [0, 1, 0, 1] "svc").2
    rfl
    ⟨{ service := "svc", pc := CallerPc.finished },
      by decide, rfl, rfl⟩

end CofideSDK
